import Mathlib

/-
Verification development for the SentientWitness real-time session relay and
peer-connection signaling subsystem.

The embedding below translates, into executable Lean definitions:
  * the server-side relay (server/routes.ts): the module-level `clients` and
    `sessions` maps, the helpers `sendToClient` and `broadcastToSession`, and
    the handlers `handleJoinSession`, `handleLeaveSession`, `handleChatMessage`,
    `handleIdentify`, `handleSignalingMessage`, plus the ws `close` handler;
  * the client-side Connection Manager (hooks/use-websocket-connection.ts):
    the status / retry-counter / reconnect-timer state machine driven by
    `connect`, `disconnect`, socket `onopen`, socket `onclose` and the
    reconnect timer callback;
  * the client-side Peer Negotiator (hooks/use-peer-connection.ts, both
    variants present in the repository): the inbound-signaling dispatch
    (`handleSignalingMessage` in the first variant, `handleWebSocketMessage`
    in the second) and `addIceCandidate`.

JavaScript `Map`s become association lists, JS `Set`s become duplicate-free
lists with `setAdd` / `setDelete`, the truthiness tests (`x || d`,
`if (m.field)`) become explicit `Option String` helpers, and the side effect
of `ws.send` becomes an explicit delivery list returned by each handler.
Handlers return the new relay state together with the list of deliveries
actually performed (a delivery happens only when the destination socket is in
the OPEN state, exactly as `sendToClient` checks `readyState`).
-/

namespace SentientWitness

/-! ## JavaScript truthiness helpers -/

/-- The JS expression `x || d` for a possibly-absent string `x`: falls back to
`d` when `x` is `undefined` or the empty string (the only falsy string). -/
def jsOrS (x : Option String) (d : String) : String :=
  match x with
  | none => d
  | some s => if s = "" then d else s

/-- The JS expression `x || null` for a possibly-absent string. -/
def jsOrNull (x : Option String) : Option String :=
  match x with
  | none => none
  | some s => if s = "" then none else some s

/-- The JS statement `if (m.field) c.field = m.field` as a value: overwrite
`old` with the inbound field only when the field is present and truthy. -/
def truthyUpd (field : Option String) (old : Option String) : Option String :=
  match field with
  | none => old
  | some s => if s = "" then old else some s

/-! ## Server relay data model (server/routes.ts) -/

/-- The server `Client` record: one live WebSocket connection. `wsOpen`
models `ws.readyState === WebSocket.OPEN`. -/
structure Client where
  id : String
  wsOpen : Bool
  sessionId : Option String := none
  userId : Option String := none
  displayName : Option String := none
  userType : Option String := none
  peerConnections : Option (List String) := none
  deriving DecidableEq, Repr

/-- Lookup in the `clients` map (first entry with the given id). -/
def clientsGet : List Client → String → Option Client
  | [], _ => none
  | c :: t, cid => if c.id = cid then some c else clientsGet t cid

/-- In-place mutation of the client object obtained from `clients.get`:
replace the first entry with the given id. -/
def clientsReplace : List Client → String → Client → List Client
  | [], _, _ => []
  | c :: t, cid, c2 => if c.id = cid then c2 :: t else c :: clientsReplace t cid c2

/-- The `clients.delete(clientId)` operation. -/
def clientsRemove (cs : List Client) (cid : String) : List Client :=
  cs.filter (fun c => decide (c.id ≠ cid))

/-- Lookup in the `sessions` map. -/
def sessionsGet : List (String × List String) → String → Option (List String)
  | [], _ => none
  | p :: t, sid => if p.1 = sid then some p.2 else sessionsGet t sid

/-- The `sessions.set(sessionId, members)` operation (insert or replace). -/
def sessionsSet : List (String × List String) → String → List String →
    List (String × List String)
  | [], sid, v => [(sid, v)]
  | p :: t, sid, v => if p.1 = sid then (sid, v) :: t else p :: sessionsSet t sid v

/-- The `sessions.delete(sessionId)` operation. -/
def sessionsDelete (s : List (String × List String)) (sid : String) :
    List (String × List String) :=
  s.filter (fun p => decide (p.1 ≠ sid))

/-- JS `Set.add`. -/
def setAdd (l : List String) (x : String) : List String :=
  if x ∈ l then l else l ++ [x]

/-- JS `Set.delete`. -/
def setDelete (l : List String) (x : String) : List String :=
  l.filter (fun y => decide (y ≠ x))

/-- The inbound `signaling` message fields destructured by
`handleSignalingMessage` and forwarded to the target. -/
structure SigServerMsg where
  signalingType : String
  senderId : String
  targetId : String
  sessionId : String
  payload : String
  deriving DecidableEq, Repr

/-- Server-to-client messages built by the relay handlers. -/
inductive ServerMsg where
  | connected (clientId : String)
  | joined (sessionId userId displayName : String)
  | userJoined (userId displayName userType : String)
  | userLeft (userId displayName : Option String)
  | identified (userId displayName userType : Option String)
  | userUpdated (userId displayName userType : Option String)
  | chat (userId displayName : Option String) (content messageType timestamp : String)
  | errorMsg (message : String)
  | signalingFwd (m : SigServerMsg) (senderName userType : Option String)
  deriving DecidableEq, Repr

/-- The relay-global mutable state: the module-level `clients` and
`sessions` maps of routes.ts. -/
structure RelayState where
  clients : List Client
  sessions : List (String × List String)
  deriving DecidableEq, Repr

/-- A delivery: `ws.send` performed on the socket of the named client. -/
abbrev Delivery := String × ServerMsg

/-- The `sendToClient` helper: sends only when the client exists and its
socket is OPEN; otherwise it is a silent no-op. -/
def sendToClient (cs : List Client) (cid : String) (msg : ServerMsg) : List Delivery :=
  match clientsGet cs cid with
  | none => []
  | some c => if c.wsOpen then [(cid, msg)] else []

/-- The `broadcastToSession` helper: iterate the session member set, skipping
excluded ids, and `sendToClient` each remaining member. -/
def broadcastToSession (st : RelayState) (sid : String) (msg : ServerMsg)
    (excl : List String) : List Delivery :=
  match sessionsGet st.sessions sid with
  | none => []
  | some members =>
      (members.filter (fun mid => decide (mid ∉ excl))).flatMap
        (fun mid => sendToClient st.clients mid msg)

/-- The inbound `join` message fields. -/
structure JoinMsg where
  sessionId : String
  userId : Option String := none
  displayName : Option String := none
  userType : Option String := none
  deriving DecidableEq, Repr

/-- The `handleJoinSession` handler: create the session if absent, add the
client to its member set, overwrite the client identity fields, ack the
caller with `joined`, broadcast `user_joined` to the other members.
Note: the prior session of the client, if any, is not touched. -/
def handleJoinSession (st : RelayState) (clientId : String) (m : JoinMsg) :
    RelayState × List Delivery :=
  match clientsGet st.clients clientId with
  | none => (st, [])
  | some client =>
      let base := match sessionsGet st.sessions m.sessionId with
        | some ms => ms
        | none => []
      let sessions2 := sessionsSet st.sessions m.sessionId (setAdd base clientId)
      let client2 : Client := { client with
        sessionId := some m.sessionId,
        userId := some (jsOrS m.userId clientId),
        displayName := some (jsOrS m.displayName "Anonymous"),
        userType := some (jsOrS m.userType "human") }
      let clients2 := clientsReplace st.clients clientId client2
      let st2 : RelayState := { clients := clients2, sessions := sessions2 }
      let sends :=
        sendToClient clients2 clientId
          (ServerMsg.joined m.sessionId (jsOrS m.userId clientId)
            (jsOrS m.displayName "Anonymous"))
        ++ broadcastToSession st2 m.sessionId
          (ServerMsg.userJoined (jsOrS m.userId clientId)
            (jsOrS m.displayName "Anonymous") (jsOrS m.userType "human"))
          [clientId]
      (st2, sends)

/-- The `handleLeaveSession` handler. -/
def handleLeaveSession (st : RelayState) (clientId : String) :
    RelayState × List Delivery :=
  match clientsGet st.clients clientId with
  | none => (st, [])
  | some client =>
      match client.sessionId with
      | none => (st, [])
      | some sid =>
          match sessionsGet st.sessions sid with
          | none =>
              let client2 : Client := { client with sessionId := none }
              ({ st with clients := clientsReplace st.clients clientId client2 }, [])
          | some members =>
              let members2 := setDelete members clientId
              let sessions1 := sessionsSet st.sessions sid members2
              let sends := broadcastToSession
                { clients := st.clients, sessions := sessions1 } sid
                (ServerMsg.userLeft client.userId client.displayName) []
              let sessions2 := if members2 = [] then sessionsDelete sessions1 sid
                else sessions1
              let client2 : Client := { client with sessionId := none }
              ({ clients := clientsReplace st.clients clientId client2,
                 sessions := sessions2 }, sends)

/-- The inbound `chat` message fields. -/
structure ChatMsg where
  content : String
  messageType : Option String := none
  deriving DecidableEq, Repr

/-- The `handleChatMessage` handler; `ts` is the server timestamp string
produced by `new Date().toISOString()`. -/
def handleChatMessage (st : RelayState) (clientId : String) (m : ChatMsg)
    (ts : String) : RelayState × List Delivery :=
  match clientsGet st.clients clientId with
  | none =>
      (st, sendToClient st.clients clientId
        (ServerMsg.errorMsg "You must join a session before sending messages"))
  | some client =>
      match client.sessionId with
      | none =>
          (st, sendToClient st.clients clientId
            (ServerMsg.errorMsg "You must join a session before sending messages"))
      | some sid =>
          (st, broadcastToSession st sid
            (ServerMsg.chat client.userId client.displayName m.content
              (jsOrS m.messageType "human") ts) [])

/-- The inbound `identify` message fields. -/
structure IdentifyMsg where
  userId : Option String := none
  displayName : Option String := none
  userType : Option String := none
  deriving DecidableEq, Repr

/-- The `handleIdentify` handler: conditionally overwrite the identity
fields, ack with `identified`, broadcast `user_updated` when in a session. -/
def handleIdentify (st : RelayState) (clientId : String) (m : IdentifyMsg) :
    RelayState × List Delivery :=
  match clientsGet st.clients clientId with
  | none => (st, [])
  | some client =>
      let client2 : Client := { client with
        userId := truthyUpd m.userId client.userId,
        displayName := truthyUpd m.displayName client.displayName,
        userType := truthyUpd m.userType client.userType }
      let clients2 := clientsReplace st.clients clientId client2
      let st2 : RelayState := { clients := clients2, sessions := st.sessions }
      let acks := sendToClient clients2 clientId
        (ServerMsg.identified client2.userId client2.displayName client2.userType)
      let sends := match client2.sessionId with
        | none => acks
        | some sid => acks ++ broadcastToSession st2 sid
            (ServerMsg.userUpdated client2.userId client2.displayName client2.userType)
            [clientId]
      (st2, sends)

/-- The `peerConnections` bookkeeping of `handleSignalingMessage`:
initialize the set if absent, and on an `offer` record the target. -/
def peerTrack (c : Client) (sigType targetId : String) : Client :=
  let pcs := match c.peerConnections with
    | none => []
    | some l => l
  { c with peerConnections := some (if sigType = "offer" then setAdd pcs targetId else pcs) }

/-- The `handleSignalingMessage` handler: validate sender membership, the
declared session, and target membership; on the `offer` kind record the
target in `peerConnections`; forward the envelope, augmented with
`senderName` and `userType`, directly to the target. -/
def handleSignalingMessage (st : RelayState) (clientId : String)
    (m : SigServerMsg) : RelayState × List Delivery :=
  match clientsGet st.clients clientId with
  | none =>
      (st, sendToClient st.clients clientId
        (ServerMsg.errorMsg "You must join a session before sending signaling messages"))
  | some client =>
      match client.sessionId with
      | none =>
          (st, sendToClient st.clients clientId
            (ServerMsg.errorMsg "You must join a session before sending signaling messages"))
      | some sid =>
          if sid ≠ m.sessionId then
            (st, sendToClient st.clients clientId
              (ServerMsg.errorMsg "You can only send signaling messages for your current session"))
          else
            match clientsGet st.clients m.targetId with
            | none =>
                (st, sendToClient st.clients clientId
                  (ServerMsg.errorMsg "Target client not found in session"))
            | some target =>
                if target.sessionId ≠ some m.sessionId then
                  (st, sendToClient st.clients clientId
                    (ServerMsg.errorMsg "Target client not found in session"))
                else
                  let client2 := peerTrack client m.signalingType m.targetId
                  let clients2 := clientsReplace st.clients clientId client2
                  (⟨clients2, st.sessions⟩,
                    sendToClient clients2 m.targetId
                      (ServerMsg.signalingFwd m client.displayName client.userType))

/-- The ws `close` handler in `registerRoutes`: remove the client from its
session (broadcasting `user_left`, deleting the session when emptied), then
deregister the client. -/
def handleClose (st : RelayState) (clientId : String) :
    RelayState × List Delivery :=
  match clientsGet st.clients clientId with
  | none => ({ st with clients := clientsRemove st.clients clientId }, [])
  | some client =>
      match client.sessionId with
      | none => ({ st with clients := clientsRemove st.clients clientId }, [])
      | some sid =>
          match sessionsGet st.sessions sid with
          | none => ({ st with clients := clientsRemove st.clients clientId }, [])
          | some members =>
              let members2 := setDelete members clientId
              let sessions1 := sessionsSet st.sessions sid members2
              let sends := broadcastToSession
                { clients := st.clients, sessions := sessions1 } sid
                (ServerMsg.userLeft client.userId client.displayName) []
              let sessions2 := if members2 = [] then sessionsDelete sessions1 sid
                else sessions1
              ({ clients := clientsRemove st.clients clientId,
                 sessions := sessions2 }, sends)

/-! ## Peer Negotiator (hooks/use-peer-connection.ts)

The repository contains two variants of the hook. Variant 1 dispatches
inbound signaling in `handleSignalingMessage`; variant 2 dispatches in
`handleWebSocketMessage`. The handlers do not build RTC objects themselves:
they either update the recorded remote-peer state or invoke one of
`handleOffer` / `handleAnswer` / `addIceCandidate` / `closeConnection`.
We model those invocations as an explicit action list, so "leaves all local
negotiation state unchanged" is: same state, empty action list. -/

/-- A call made by the dispatch handlers into the negotiation machinery. -/
inductive PeerAction where
  | handleAnswerAct (payload : String)
  | addIceAct (payload : String)
  | closeConnAct
  | handleOfferAct (payload senderId senderName sessionId : String)
  deriving DecidableEq, Repr

/-- Variant 1 local negotiation identity state touched by the dispatcher:
the recorded remote peer (`peerId`, `peerName`). -/
structure PeerState1 where
  peerId : Option String := none
  peerName : Option String := none
  deriving DecidableEq, Repr

/-- Variant 1 inbound message shape (flat fields on the message). -/
structure SigInMsgV1 where
  msgType : String
  signalingType : String
  senderId : String
  senderName : Option String := none
  targetId : String
  payload : String
  deriving DecidableEq, Repr

/-- Variant 1 `handleSignalingMessage`: drop anything not addressed to the
local id; an `offer` records the sender as the remote peer; `answer`,
`ice-candidate` and `peer-disconnect` are dispatched only when the sender is
the currently recorded remote peer. -/
def handleSignalingMessageV1 (localId : String) (st : PeerState1)
    (m : SigInMsgV1) : PeerState1 × List PeerAction :=
  if m.msgType ≠ "signaling" ∨ m.targetId ≠ localId then (st, [])
  else if m.signalingType = "offer" then
    ({ st with peerId := some m.senderId, peerName := jsOrNull m.senderName }, [])
  else if m.signalingType = "answer" then
    if some m.senderId = st.peerId then (st, [PeerAction.handleAnswerAct m.payload])
    else (st, [])
  else if m.signalingType = "ice-candidate" then
    if some m.senderId = st.peerId then (st, [PeerAction.addIceAct m.payload])
    else (st, [])
  else if m.signalingType = "peer-disconnect" then
    if some m.senderId = st.peerId then (st, [PeerAction.closeConnAct])
    else (st, [])
  else (st, [])

/-- A call performed on the underlying RTCPeerConnection platform object. -/
inductive RtcCall where
  | platformAddIce (candidate : String)
  deriving DecidableEq, Repr

/-- Variant 1 `addIceCandidate`: hands the candidate to the platform only
when a peer connection object exists (`peerConnectionRef.current` non-null);
with no peer connection it does nothing at all (no buffering, no error). -/
def addIceCandidateV1 (pcPresent : Bool) (candidate : String) : List RtcCall :=
  if pcPresent then [RtcCall.platformAddIce candidate] else []

/-- Interpret the action a variant 1 dispatch emitted, at the level of
platform calls, for the ice-candidate path. -/
def runIceActionV1 (pcPresent : Bool) (a : PeerAction) : List RtcCall :=
  match a with
  | PeerAction.addIceAct c => addIceCandidateV1 pcPresent c
  | _ => []

/-- Full variant 1 processing of one inbound message down to platform
ice-candidate calls: dispatch, then run `addIceCandidate` for each emitted
ice action. -/
def processIceV1 (localId : String) (st : PeerState1) (pcPresent : Bool)
    (m : SigInMsgV1) : PeerState1 × List RtcCall :=
  let r := handleSignalingMessageV1 localId st m
  (r.1, r.2.flatMap (runIceActionV1 pcPresent))

/-- Variant 2 local state touched by the dispatcher: connection `status`
(string union as in the source), recorded remote peer, and whether the
peer connection object exists. -/
structure PeerState2 where
  status : String := "disconnected"
  peerId : Option String := none
  pcPresent : Bool := false
  deriving DecidableEq, Repr

/-- Variant 2 signaling content (nested under `message.content`). -/
structure SignalingContent where
  signalingType : String
  senderId : String
  senderName : Option String := none
  targetId : String
  sessionId : String
  payload : String
  deriving DecidableEq, Repr

/-- Variant 2 inbound WebSocket message. -/
structure WsMsgV2 where
  msgType : String
  content : SignalingContent
  deriving DecidableEq, Repr

/-- Variant 2 `handleWebSocketMessage`: drop non-signaling messages and
messages not addressed to the local id; `offer` is handled only while
`status` is disconnected; `answer` only while `status` is connecting;
`ice-candidate` whenever a peer connection object exists; `peer-disconnect`
only from the recorded remote peer. -/
def handleWebSocketMessageV2 (localId : String) (st : PeerState2)
    (m : WsMsgV2) : PeerState2 × List PeerAction :=
  if m.msgType ≠ "signaling" then (st, [])
  else if m.content.targetId ≠ localId then (st, [])
  else if m.content.signalingType = "offer" then
    if m.content.senderId ≠ "" ∧ st.status = "disconnected" then
      (st, [PeerAction.handleOfferAct m.content.payload m.content.senderId
        (jsOrS m.content.senderName "Peer") m.content.sessionId])
    else (st, [])
  else if m.content.signalingType = "answer" then
    if m.content.senderId ≠ "" ∧ st.status = "connecting" then
      (st, [PeerAction.handleAnswerAct m.content.payload])
    else (st, [])
  else if m.content.signalingType = "ice-candidate" then
    if st.pcPresent then (st, [PeerAction.addIceAct m.content.payload])
    else (st, [])
  else if m.content.signalingType = "peer-disconnect" then
    if some m.content.senderId = st.peerId then (st, [PeerAction.closeConnAct])
    else (st, [])
  else (st, [])

/-! ## Connection Manager (hooks/use-websocket-connection.ts)

The hook is a callback-driven state machine over: the `status` state, the
`reconnectAttempt` counter, the pending reconnect timeout, and the socket
reference. Events are the `connect` and `disconnect` calls, the socket
`onopen` and `onclose` callbacks, and the reconnect timer callback (which
increments the counter and re-invokes `connect`). Socket and timer callbacks
fire only while the corresponding resource exists; an event whose resource
is absent leaves the state unchanged. -/

/-- The Connection Manager `ConnectionStatus` union. -/
inductive ConnStatus where
  | disconnected
  | connecting
  | connected
  | reconnecting
  | error
  deriving DecidableEq, Repr

/-- The Connection Manager state: `status`, the `reconnectAttempt` counter,
whether a reconnect timeout is pending, and whether a socket exists. -/
structure WSState where
  status : ConnStatus := ConnStatus.disconnected
  reconnectAttempt : Nat := 0
  timerPending : Bool := false
  socketPresent : Bool := false
  deriving DecidableEq, Repr

/-- Events driving the Connection Manager. -/
inductive WSEvent where
  | connectCall
  | disconnectCall
  | openEvt
  | closeEvt (code : Nat)
  | timerFire
  deriving DecidableEq, Repr

/-- The `connect` function body: no-op while connecting, connected or
reconnecting; otherwise clear any pending timer, transition to connecting
and create a new socket. -/
def connectFn (st : WSState) : WSState :=
  if st.status = ConnStatus.connecting ∨ st.status = ConnStatus.connected ∨
      st.status = ConnStatus.reconnecting then st
  else
    { status := ConnStatus.connecting,
      reconnectAttempt := st.reconnectAttempt,
      timerPending := false,
      socketPresent := true }

/-- One Connection Manager step. `maxAtt` is `maxReconnectAttempts`.
The `closeEvt` case is the `socket.onclose` handler: code 1000 is a clean
close; an unclean close transitions to reconnecting and schedules the
reconnect timer while the counter is below the maximum, and to error with no
timer once it is not. `timerFire` is the scheduled callback: increment the
counter, then call `connect`. `disconnectCall` clears the pending timer,
closes the socket with code 1000, resets the counter and status. -/
def wsStep (maxAtt : Nat) (st : WSState) (e : WSEvent) : WSState :=
  match e with
  | WSEvent.connectCall => connectFn st
  | WSEvent.disconnectCall =>
      { status := ConnStatus.disconnected, reconnectAttempt := 0,
        timerPending := false, socketPresent := false }
  | WSEvent.openEvt =>
      if st.socketPresent then
        { st with status := ConnStatus.connected, reconnectAttempt := 0 }
      else st
  | WSEvent.closeEvt code =>
      if st.socketPresent then
        if code = 1000 then
          { st with status := ConnStatus.disconnected, socketPresent := false }
        else if st.reconnectAttempt < maxAtt then
          { st with status := ConnStatus.reconnecting, socketPresent := false, timerPending := true }
        else
          { st with status := ConnStatus.error, socketPresent := false }
      else st
  | WSEvent.timerFire =>
      if st.timerPending then
        connectFn { st with timerPending := false, reconnectAttempt := st.reconnectAttempt + 1 }
      else st

/-- A run of the Connection Manager over a list of events. -/
def wsRun (maxAtt : Nat) (st : WSState) (evs : List WSEvent) : WSState :=
  evs.foldl (wsStep maxAtt) st

/-! ## Helper lemmas about the map and set embeddings -/

theorem clientsGet_eq_id {cs : List Client} {cid : String} {c : Client}
    (h : clientsGet cs cid = some c) : c.id = cid := by
  induction cs with
  | nil => simp [clientsGet] at h
  | cons a t ih =>
      unfold clientsGet at h
      split at h
      · cases h; assumption
      · exact ih h

theorem clientsGet_replace_self {cs : List Client} {cid : String} {c c2 : Client}
    (h : clientsGet cs cid = some c) (h2 : c2.id = cid) :
    clientsGet (clientsReplace cs cid c2) cid = some c2 := by
  induction cs with
  | nil => simp [clientsGet] at h
  | cons a t ih =>
      unfold clientsGet at h
      split at h
      · rename_i ha; simp [clientsReplace, clientsGet, ha, h2]
      · rename_i ha
        simp only [clientsReplace, clientsGet, if_neg ha]
        exact ih h

theorem clientsGet_replace_ne {cs : List Client} {cid tid : String} {c2 : Client}
    (h2 : c2.id = cid) (hne : tid ≠ cid) :
    clientsGet (clientsReplace cs cid c2) tid = clientsGet cs tid := by
  induction cs with
  | nil => rfl
  | cons a t ih =>
      by_cases ha : a.id = cid
      · have hc2 : ¬ c2.id = tid := by
          rw [h2]; intro hx; exact hne hx.symm
        have hax : ¬ a.id = tid := by
          rw [ha]; intro hx; exact hne hx.symm
        simp only [clientsReplace, clientsGet, if_pos ha, if_neg hc2, if_neg hax]
      · simp only [clientsReplace, clientsGet, if_neg ha]
        split
        · rfl
        · exact ih

theorem sessionsGet_set_self (s : List (String × List String)) (k : String)
    (v : List String) : sessionsGet (sessionsSet s k v) k = some v := by
  induction s with
  | nil => simp [sessionsSet, sessionsGet]
  | cons p t ih =>
      by_cases hp : p.1 = k
      · simp [sessionsSet, sessionsGet, hp]
      · simp only [sessionsSet, sessionsGet, if_neg hp]
        exact ih

theorem sessionsGet_set_ne (s : List (String × List String)) {k k2 : String}
    (v : List String) (hne : k2 ≠ k) :
    sessionsGet (sessionsSet s k v) k2 = sessionsGet s k2 := by
  have hk : ¬ k = k2 := fun h => hne h.symm
  induction s with
  | nil => simp [sessionsSet, sessionsGet, hk]
  | cons p t ih =>
      by_cases hp : p.1 = k
      · have hp2 : ¬ p.1 = k2 := by rw [hp]; exact hk
        simp [sessionsSet, sessionsGet, hp, hk, hp2]
      · simp only [sessionsSet, sessionsGet, if_neg hp]
        split
        · rfl
        · exact ih

theorem sessionsGet_delete_self (s : List (String × List String)) (k : String) :
    sessionsGet (sessionsDelete s k) k = none := by
  induction s with
  | nil => rfl
  | cons p t ih =>
      by_cases hp : p.1 = k
      · unfold sessionsDelete at ih ⊢
        rw [List.filter_cons_of_neg (by simp [hp])]
        exact ih
      · unfold sessionsDelete at ih ⊢
        rw [List.filter_cons_of_pos (by simp [hp])]
        simpa [sessionsGet, hp] using ih

theorem sessionsGet_delete_ne (s : List (String × List String)) {k k2 : String}
    (hne : k2 ≠ k) : sessionsGet (sessionsDelete s k) k2 = sessionsGet s k2 := by
  induction s with
  | nil => rfl
  | cons p t ih =>
      by_cases hp : p.1 = k
      · have hp2 : ¬ p.1 = k2 := by
          rw [hp]; intro hx; exact hne hx.symm
        unfold sessionsDelete at ih ⊢
        rw [List.filter_cons_of_neg (by simp [hp])]
        simpa [sessionsGet, hp2] using ih
      · unfold sessionsDelete at ih ⊢
        rw [List.filter_cons_of_pos (by simp [hp])]
        simp only [sessionsGet]
        split
        · rfl
        · exact ih

theorem peerTrack_id (c : Client) (s t : String) : (peerTrack c s t).id = c.id :=
  rfl

theorem peerTrack_wsOpen (c : Client) (s t : String) :
    (peerTrack c s t).wsOpen = c.wsOpen :=
  rfl

theorem setAdd_ne_nil (l : List String) (x : String) : setAdd l x ≠ [] := by
  unfold setAdd
  split
  · rename_i hx
    intro h
    rw [h] at hx
    simp at hx
  · simp

theorem mem_sendToClient {cs : List Client} {cid : String} {msg : ServerMsg}
    {d : Delivery} :
    d ∈ sendToClient cs cid msg ↔
      d = (cid, msg) ∧ ∃ c, clientsGet cs cid = some c ∧ c.wsOpen = true := by
  unfold sendToClient
  cases h : clientsGet cs cid with
  | none => simp
  | some c =>
      cases hw : c.wsOpen with
      | false => simp [hw]
      | true => simp [hw]

theorem mem_broadcastToSession {st : RelayState} {sid : String} {msg : ServerMsg}
    {excl : List String} {d : Delivery} :
    d ∈ broadcastToSession st sid msg excl ↔
      d.2 = msg ∧ ∃ members, sessionsGet st.sessions sid = some members ∧
        d.1 ∈ members ∧ d.1 ∉ excl ∧
        ∃ c, clientsGet st.clients d.1 = some c ∧ c.wsOpen = true := by
  unfold broadcastToSession
  cases h : sessionsGet st.sessions sid with
  | none => simp
  | some members =>
      simp only [List.mem_flatMap, List.mem_filter, decide_eq_true_eq, Option.some.injEq]
      constructor
      · rintro ⟨mid, ⟨hmem, hexcl⟩, hsend⟩
        rcases mem_sendToClient.mp hsend with ⟨hd, c, hget, hopen⟩
        subst hd
        exact ⟨rfl, members, rfl, hmem, hexcl, c, hget, hopen⟩
      · rintro ⟨hd2, members2, hm2, hmem, hexcl, c, hget, hopen⟩
        cases hm2
        refine ⟨d.1, ⟨hmem, hexcl⟩, ?_⟩
        rw [mem_sendToClient]
        exact ⟨by rw [← hd2], c, hget, hopen⟩

/-! ## Claim theorems -/

/-- C1. The claim states that a join for a different session first performs
an implicit leave of the prior session. The code does not: evaluating
`handleJoinSession` for a connection that is the sole member of session
`"A"` joining session `"B"` leaves the connection in BOTH member sets — no
`user_left` is broadcast to `"A"`, `"A"` is not deleted, and the only
delivery is the `joined` acknowledgment. This exhibits the failing input for
the claim (the code contradicts the invariant the spec says join must
enforce). -/
theorem join_switch_dual_membership :
    let alice : Client :=
      { id := "c1", wsOpen := true, sessionId := some "A",
        userId := some "u1", displayName := some "Alice" }
    let st : RelayState := { clients := [alice], sessions := [("A", ["c1"])] }
    let out := handleJoinSession st "c1"
      { sessionId := "B", userId := some "u1", displayName := some "Alice" }
    sessionsGet out.1.sessions "A" = some ["c1"] ∧
    sessionsGet out.1.sessions "B" = some ["c1"] ∧
    out.2 = [("c1", ServerMsg.joined "B" "u1" "Alice")] := by
  exact ⟨rfl, rfl, rfl⟩

/-- C9. `handleIdentify` never alters session membership: the sessions map
is unchanged, and the connection record after identify differs from the
prior record only in `userId`, `displayName` and `userType`, each
overwritten exactly when the inbound field is present and truthy (so in
particular `sessionId` is preserved); an identify for an unknown connection
changes nothing and sends nothing. -/
theorem identify_frame (st : RelayState) (cid : String) (m : IdentifyMsg) :
    (handleIdentify st cid m).1.sessions = st.sessions ∧
    (clientsGet st.clients cid = none → handleIdentify st cid m = (st, [])) ∧
    (∀ c, clientsGet st.clients cid = some c →
      clientsGet (handleIdentify st cid m).1.clients cid = some { c with
        userId := truthyUpd m.userId c.userId,
        displayName := truthyUpd m.displayName c.displayName,
        userType := truthyUpd m.userType c.userType }) := by
  refine ⟨?_, ?_, ?_⟩
  · unfold handleIdentify
    cases h : clientsGet st.clients cid with
    | none => rfl
    | some c => cases hs : c.sessionId <;> rfl
  · intro h
    unfold handleIdentify
    rw [h]
  · intro c h
    have hid : c.id = cid := clientsGet_eq_id h
    simp only [handleIdentify, h]
    exact clientsGet_replace_self h hid

/-- C10. `sendToClient` is a silent no-op when the client id is not
registered or its socket is not OPEN, and sends exactly one message
otherwise; a delivery belongs to `broadcastToSession` exactly when it
carries the broadcast message to a non-excluded session member whose
registered socket is OPEN — unreachable members are skipped with no error
and no other delivery. -/
theorem send_broadcast_spec :
    (∀ (cs : List Client) (cid : String) (msg : ServerMsg),
      clientsGet cs cid = none → sendToClient cs cid msg = []) ∧
    (∀ (cs : List Client) (cid : String) (msg : ServerMsg) (c : Client),
      clientsGet cs cid = some c → c.wsOpen = false → sendToClient cs cid msg = []) ∧
    (∀ (cs : List Client) (cid : String) (msg : ServerMsg) (c : Client),
      clientsGet cs cid = some c → c.wsOpen = true →
      sendToClient cs cid msg = [(cid, msg)]) ∧
    (∀ (st : RelayState) (sid : String) (msg : ServerMsg) (excl : List String)
      (d : Delivery), d ∈ broadcastToSession st sid msg excl ↔
        d.2 = msg ∧ ∃ members, sessionsGet st.sessions sid = some members ∧
          d.1 ∈ members ∧ d.1 ∉ excl ∧
          ∃ c, clientsGet st.clients d.1 = some c ∧ c.wsOpen = true) := by
  refine ⟨?_, ?_, ?_, ?_⟩
  · intro cs cid msg h; unfold sendToClient; rw [h]
  · intro cs cid msg c h hw; unfold sendToClient; rw [h]; simp [hw]
  · intro cs cid msg c h hw; unfold sendToClient; rw [h]; simp [hw]
  · intro st sid msg excl d; exact mem_broadcastToSession

/-- C8. A chat from a connection that is in no session yields exactly one
error delivery to that connection, no broadcast and no state change; a chat
from a session member leaves the state unchanged and broadcasts, to every
session member with an OPEN socket (no exclusion list, so the sender
included), a `chat` event carrying the sender identity and name, the
content, the message kind (defaulted to "human" when absent) and the server
timestamp. -/
theorem chat_spec (st : RelayState) (cid : String) (m : ChatMsg) (ts : String) :
    (∀ c, clientsGet st.clients cid = some c → c.sessionId = none →
      c.wsOpen = true → handleChatMessage st cid m ts =
        (st, [(cid, ServerMsg.errorMsg "You must join a session before sending messages")])) ∧
    (∀ c sid, clientsGet st.clients cid = some c → c.sessionId = some sid →
      handleChatMessage st cid m ts = (st, broadcastToSession st sid
        (ServerMsg.chat c.userId c.displayName m.content
          (jsOrS m.messageType "human") ts) [])) ∧
    (∀ c sid members mid c2, clientsGet st.clients cid = some c →
      c.sessionId = some sid → sessionsGet st.sessions sid = some members →
      mid ∈ members → clientsGet st.clients mid = some c2 → c2.wsOpen = true →
      (mid, ServerMsg.chat c.userId c.displayName m.content
        (jsOrS m.messageType "human") ts) ∈ (handleChatMessage st cid m ts).2) := by
  refine ⟨?_, ?_, ?_⟩
  · intro c h hs hw
    simp only [handleChatMessage, h, hs, sendToClient, hw, if_true]
  · intro c sid h hs
    simp only [handleChatMessage, h, hs]
  · intro c sid members mid c2 h hs hm hmem hc2 hw
    simp only [handleChatMessage, h, hs]
    exact mem_broadcastToSession.mpr ⟨rfl, members, hm, hmem, by simp, c2, hc2, hw⟩

/-- C2. Complete case characterization of `handleSignalingMessage` for a
registered sender with an OPEN socket: the envelope is forwarded exactly
when the sender is in a session equal to the envelope session and the target
exists in that same session, and then the only delivery is the envelope
augmented with the sender name and kind, sent to the target alone (when the
target socket is OPEN); on every failed precondition the relay state is
unchanged and exactly one `error` delivery naming the violated precondition
goes to the sender. -/
theorem relay_signal_spec (st : RelayState) (cid : String) (m : SigServerMsg)
    (c : Client) (hc : clientsGet st.clients cid = some c)
    (hopen : c.wsOpen = true) :
    (c.sessionId = none → handleSignalingMessage st cid m =
      (st, [(cid, ServerMsg.errorMsg "You must join a session before sending signaling messages")])) ∧
    (∀ sid, c.sessionId = some sid → sid ≠ m.sessionId →
      handleSignalingMessage st cid m =
      (st, [(cid, ServerMsg.errorMsg "You can only send signaling messages for your current session")])) ∧
    (c.sessionId = some m.sessionId → clientsGet st.clients m.targetId = none →
      handleSignalingMessage st cid m =
      (st, [(cid, ServerMsg.errorMsg "Target client not found in session")])) ∧
    (∀ t, c.sessionId = some m.sessionId →
      clientsGet st.clients m.targetId = some t →
      t.sessionId ≠ some m.sessionId → handleSignalingMessage st cid m =
      (st, [(cid, ServerMsg.errorMsg "Target client not found in session")])) ∧
    (∀ t, c.sessionId = some m.sessionId →
      clientsGet st.clients m.targetId = some t →
      t.sessionId = some m.sessionId →
      (handleSignalingMessage st cid m).2 =
        (if t.wsOpen then
          [(m.targetId, ServerMsg.signalingFwd m c.displayName c.userType)]
        else [])) := by
  refine ⟨?_, ?_, ?_, ?_, ?_⟩
  · intro hsn
    simp only [handleSignalingMessage, hc, hsn, sendToClient, hopen, if_true]
  · intro sid hs hne
    simp only [handleSignalingMessage, hc, hs, if_pos hne, sendToClient, hopen, if_true]
  · intro hs htn
    simp only [handleSignalingMessage, hc, hs, ne_eq, not_true_eq_false, if_false, htn,
      sendToClient, hopen, if_true]
  · intro t hs ht hts
    simp only [handleSignalingMessage, hc, hs, ne_eq, not_true_eq_false, if_false, ht,
      if_pos hts, sendToClient, hopen, if_true]
  · intro t hs ht hts
    have hid : c.id = cid := clientsGet_eq_id hc
    simp only [handleSignalingMessage, hc, hs, ne_eq, not_true_eq_false, if_false, ht,
      hts, not_true_eq_false, if_false]
    have hid2 : (peerTrack c m.signalingType m.targetId).id = cid := by
      rw [peerTrack_id]; exact hid
    by_cases htc : m.targetId = cid
    · have htcc : t = c := by
        rw [htc] at ht
        rw [hc] at ht
        exact (Option.some.inj ht).symm
      have hlook : clientsGet
          (clientsReplace st.clients cid (peerTrack c m.signalingType m.targetId))
          m.targetId = some (peerTrack c m.signalingType m.targetId) := by
        rw [htc]
        exact clientsGet_replace_self hc hid2
      rw [sendToClient, hlook]
      cases hw : c.wsOpen <;> simp [peerTrack_wsOpen, htcc, hw]
    · rw [sendToClient, clientsGet_replace_ne hid2 htc, ht]

/-- Nonemptiness of every present session member set. -/
def sessionsNE (st : RelayState) : Prop :=
  ∀ sid ms, sessionsGet st.sessions sid = some ms → ms ≠ []

/-- Per-operation session lifecycle facts: a join naming an unseen session
identity creates its entry containing exactly the joiner; when the
connection whose recorded session is `sid` is the sole element of that
member set and it leaves, or its socket closes, the entry is deleted; and
the "no empty session is kept" invariant is preserved by join, leave and
close (the other handlers do not touch the sessions map, as their
definitions return `st.sessions` unchanged). These facts do NOT give the
global lifecycle invariant of the spec: see the ghost-membership trace in
the C3 theorem below. -/
theorem session_lifecycle :
    (∀ (st : RelayState) (cid : String) (c : Client) (m : JoinMsg),
      clientsGet st.clients cid = some c →
      sessionsGet st.sessions m.sessionId = none →
      sessionsGet (handleJoinSession st cid m).1.sessions m.sessionId = some [cid]) ∧
    (∀ (st : RelayState) (cid : String) (c : Client) (sid : String),
      clientsGet st.clients cid = some c → c.sessionId = some sid →
      sessionsGet st.sessions sid = some [cid] →
      sessionsGet (handleLeaveSession st cid).1.sessions sid = none) ∧
    (∀ (st : RelayState) (cid : String) (c : Client) (sid : String),
      clientsGet st.clients cid = some c → c.sessionId = some sid →
      sessionsGet st.sessions sid = some [cid] →
      sessionsGet (handleClose st cid).1.sessions sid = none) ∧
    (∀ (st : RelayState) (cid : String) (m : JoinMsg),
      sessionsNE st → sessionsNE (handleJoinSession st cid m).1) ∧
    (∀ (st : RelayState) (cid : String),
      sessionsNE st → sessionsNE (handleLeaveSession st cid).1) ∧
    (∀ (st : RelayState) (cid : String),
      sessionsNE st → sessionsNE (handleClose st cid).1) := by
  refine ⟨?_, ?_, ?_, ?_, ?_, ?_⟩
  · intro st cid c m hc hsn
    simp only [handleJoinSession, hc, hsn]
    rw [sessionsGet_set_self]
    simp [setAdd]
  · intro st cid c sid hc hcs hsm
    simp only [handleLeaveSession, hc, hcs, hsm]
    have hd : setDelete [cid] cid = [] := by simp [setDelete]
    simp only [hd, if_pos]
    exact sessionsGet_delete_self _ _
  · intro st cid c sid hc hcs hsm
    simp only [handleClose, hc, hcs, hsm]
    have hd : setDelete [cid] cid = [] := by simp [setDelete]
    simp only [hd, if_pos]
    exact sessionsGet_delete_self _ _
  · intro st cid m hne
    cases hc : clientsGet st.clients cid with
    | none => simp only [handleJoinSession, hc]; exact hne
    | some c =>
        simp only [handleJoinSession, hc, sessionsNE]
        intro sid ms hget
        by_cases hsid : sid = m.sessionId
        · subst hsid
          rw [sessionsGet_set_self] at hget
          cases hget
          exact setAdd_ne_nil _ _
        · rw [sessionsGet_set_ne _ _ hsid] at hget
          exact hne sid ms hget
  · intro st cid hne
    cases hc : clientsGet st.clients cid with
    | none => simp only [handleLeaveSession, hc]; exact hne
    | some c =>
        cases hcs : c.sessionId with
        | none => simp only [handleLeaveSession, hc, hcs]; exact hne
        | some sid =>
            cases hsm : sessionsGet st.sessions sid with
            | none => simp only [handleLeaveSession, hc, hcs, hsm]; exact hne
            | some members =>
                simp only [handleLeaveSession, hc, hcs, hsm, sessionsNE]
                by_cases hd : setDelete members cid = []
                · simp only [hd, if_pos]
                  intro sid2 ms hget
                  by_cases h2 : sid2 = sid
                  · subst h2
                    rw [sessionsGet_delete_self] at hget
                    cases hget
                  · rw [sessionsGet_delete_ne _ h2, sessionsGet_set_ne _ _ h2] at hget
                    exact hne sid2 ms hget
                · simp only [hd, if_false]
                  intro sid2 ms hget
                  by_cases h2 : sid2 = sid
                  · subst h2
                    rw [sessionsGet_set_self] at hget
                    cases hget
                    exact hd
                  · rw [sessionsGet_set_ne _ _ h2] at hget
                    exact hne sid2 ms hget
  · intro st cid hne
    cases hc : clientsGet st.clients cid with
    | none => simp only [handleClose, hc]; exact hne
    | some c =>
        cases hcs : c.sessionId with
        | none => simp only [handleClose, hc, hcs]; exact hne
        | some sid =>
            cases hsm : sessionsGet st.sessions sid with
            | none => simp only [handleClose, hc, hcs, hsm]; exact hne
            | some members =>
                simp only [handleClose, hc, hcs, hsm, sessionsNE]
                by_cases hd : setDelete members cid = []
                · simp only [hd, if_pos]
                  intro sid2 ms hget
                  by_cases h2 : sid2 = sid
                  · subst h2
                    rw [sessionsGet_delete_self] at hget
                    cases hget
                  · rw [sessionsGet_delete_ne _ h2, sessionsGet_set_ne _ _ h2] at hget
                    exact hne sid2 ms hget
                · simp only [hd, if_false]
                  intro sid2 ms hget
                  by_cases h2 : sid2 = sid
                  · subst h2
                    rw [sessionsGet_set_self] at hget
                    cases hget
                    exact hd
                  · rw [sessionsGet_set_ne _ _ h2] at hget
                    exact hne sid2 ms hget

/-- C3. The claim states that a session entry exists exactly while it has a
member connection: deleted when its last member leaves or disconnects, so a
later join recreates it with an empty prior member set. The code violates
this in a reachable state, as a consequence of the join-switch bug of C1:
after `c1` joins `"A"` and then joins `"B"` (which does not remove `c1`
from `"A"`), the close of `c1`'s socket cleans up only the recorded session
`"B"`. Session `"A"` therefore survives the disconnect of its only live
member, holding the dangling id `"c1"`, `"B"` is correctly deleted, and a
fresh connection `c2` subsequently joining `"A"` finds the non-empty prior
member set `["c1"]` rather than a freshly created one. -/
theorem session_survives_last_disconnect :
    let c1 : Client := { id := "c1", wsOpen := true }
    let st0 : RelayState := { clients := [c1], sessions := [] }
    let st1 := (handleJoinSession st0 "c1" { sessionId := "A" }).1
    let st2 := (handleJoinSession st1 "c1" { sessionId := "B" }).1
    let st3 := (handleClose st2 "c1").1
    clientsGet st3.clients "c1" = none ∧
    sessionsGet st3.sessions "B" = none ∧
    sessionsGet st3.sessions "A" = some ["c1"] ∧
    (let c2 : Client := { id := "c2", wsOpen := true }
     let st4 : RelayState := { clients := [c2], sessions := st3.sessions }
     sessionsGet (handleJoinSession st4 "c2" { sessionId := "A" }).1.sessions "A" =
       some ["c1", "c2"]) := by
  exact ⟨rfl, rfl, rfl, rfl⟩

/-- C6 counterexample. With `maxReconnectAttempts = 1`, a single unclean
close — i.e. a number of consecutive unclean closes equal to the configured
maximum — leaves the Connection Manager in `reconnecting` with a reconnect
timer scheduled and the retry counter still 0: the status is not `error`,
a further reconnect timer IS scheduled, and the close did not increment the
counter, contradicting the claim as stated. -/
theorem reconnect_bound_counterexample :
    let st1 := wsRun 1
      { status := ConnStatus.disconnected, reconnectAttempt := 0,
        timerPending := false, socketPresent := false }
      [WSEvent.connectCall, WSEvent.closeEvt 1006]
    st1.status = ConnStatus.reconnecting ∧ st1.status ≠ ConnStatus.error ∧
    st1.timerPending = true ∧ st1.reconnectAttempt = 0 := by
  exact ⟨rfl, by decide, rfl, rfl⟩

/-- C6 amended. For a state holding a socket and no pending timer: an
unclean close (code other than 1000) while the retry counter is below
`maxReconnectAttempts` transitions to `reconnecting` and schedules exactly
one reconnect timer, leaving the counter unchanged (the counter is
incremented by the timer callback when it fires, as the last conjunct
states); an unclean close once the counter has reached the maximum
transitions to `error` and schedules no timer. The `error` transition thus
happens at the earliest on the (maximum + 1)-th consecutive unclean close,
not the maximum-th. -/
theorem reconnect_close_amended (maxAtt : Nat) (st : WSState) (code : Nat)
    (hs : st.socketPresent = true) (ht : st.timerPending = false)
    (hcode : code ≠ 1000) :
    (st.reconnectAttempt < maxAtt →
      (wsStep maxAtt st (WSEvent.closeEvt code)).status = ConnStatus.reconnecting ∧
      (wsStep maxAtt st (WSEvent.closeEvt code)).timerPending = true ∧
      (wsStep maxAtt st (WSEvent.closeEvt code)).reconnectAttempt = st.reconnectAttempt) ∧
    (maxAtt ≤ st.reconnectAttempt →
      (wsStep maxAtt st (WSEvent.closeEvt code)).status = ConnStatus.error ∧
      (wsStep maxAtt st (WSEvent.closeEvt code)).timerPending = false) ∧
    (∀ st2 : WSState, st2.timerPending = true →
      (wsStep maxAtt st2 WSEvent.timerFire).reconnectAttempt =
        st2.reconnectAttempt + 1) := by
  refine ⟨?_, ?_, ?_⟩
  · intro hlt
    simp [wsStep, hs, hcode, hlt]
  · intro hge
    have hnlt : ¬ st.reconnectAttempt < maxAtt := by omega
    simp [wsStep, hs, hcode, hnlt, ht]
  · intro st2 h2
    simp only [wsStep, h2, if_true, connectFn]
    split
    · rfl
    · rfl

/-- Helper invariant for C7: with no pending timer, no socket, and a status
other than `connecting`, any event sequence that contains no `connect` call
keeps all three facts (socket close and open callbacks cannot fire with no
socket, and the reconnect timer cannot fire unscheduled). -/
theorem wsRun_quiescent (maxAtt : Nat) (st : WSState) (evs : List WSEvent)
    (hT : st.timerPending = false) (hS : st.socketPresent = false)
    (hC : st.status ≠ ConnStatus.connecting)
    (hev : WSEvent.connectCall ∉ evs) :
    (wsRun maxAtt st evs).timerPending = false ∧
    (wsRun maxAtt st evs).socketPresent = false ∧
    (wsRun maxAtt st evs).status ≠ ConnStatus.connecting := by
  induction evs generalizing st with
  | nil => exact ⟨hT, hS, hC⟩
  | cons e t ih =>
      have hne : e ≠ WSEvent.connectCall := by
        intro h
        exact hev (by rw [h]; exact List.mem_cons_self _ _)
      have htl : WSEvent.connectCall ∉ t := fun h => hev (List.mem_cons_of_mem _ h)
      cases e with
      | connectCall => exact absurd rfl hne
      | disconnectCall =>
          exact ih _ rfl rfl (by intro h; cases h) htl
      | openEvt =>
          simp only [wsRun, List.foldl_cons, wsStep, hS, if_false]
          exact ih _ hT hS hC htl
      | closeEvt code =>
          simp only [wsRun, List.foldl_cons, wsStep, hS, if_false]
          exact ih _ hT hS hC htl
      | timerFire =>
          simp only [wsRun, List.foldl_cons, wsStep, hT, if_false]
          exact ih _ hT hS hC htl

/-- C7. Calling `disconnect()` while `reconnecting` cancels the pending
reconnect timer, closes the channel (no socket remains), resets the retry
counter to zero and transitions to `disconnected`; and after that, for any
sequence of events that contains no explicit `connect()` call, the status
never becomes `connecting` (in particular no stale reconnect can fire,
since no timer is pending). -/
theorem disconnect_cancels_reconnect (maxAtt : Nat) (st : WSState)
    (h : st.status = ConnStatus.reconnecting) (evs : List WSEvent)
    (hev : WSEvent.connectCall ∉ evs) :
    (wsStep maxAtt st WSEvent.disconnectCall).status = ConnStatus.disconnected ∧
    (wsStep maxAtt st WSEvent.disconnectCall).reconnectAttempt = 0 ∧
    (wsStep maxAtt st WSEvent.disconnectCall).timerPending = false ∧
    (wsStep maxAtt st WSEvent.disconnectCall).socketPresent = false ∧
    (wsRun maxAtt (wsStep maxAtt st WSEvent.disconnectCall) evs).status ≠
      ConnStatus.connecting := by
  refine ⟨rfl, rfl, rfl, rfl, ?_⟩
  exact (wsRun_quiescent maxAtt _ evs rfl rfl (by intro hx; cases hx) hev).2.2

/-- C4 counterexample. An `ice-candidate` envelope addressed to the local
peer, arriving from the recorded remote peer before any peer connection
object exists, is silently discarded by both variants: variant 2's
dispatcher returns the state unchanged with no action at all (no buffering,
no retry, no error), and variant 1's full path (dispatch followed by
`addIceCandidate`) performs no platform call and no state change either. -/
theorem ice_dropped_counterexample :
    (let st : PeerState2 :=
      { status := "connecting", peerId := some "p", pcPresent := false }
     let m : WsMsgV2 :=
      { msgType := "signaling", content :=
        { signalingType := "ice-candidate", senderId := "p", senderName := none,
          targetId := "me", sessionId := "s", payload := "cand" } }
     st.pcPresent = false ∧ handleWebSocketMessageV2 "me" st m = (st, [])) ∧
    (let st1 : PeerState1 := { peerId := some "p", peerName := none }
     let m1 : SigInMsgV1 :=
      { msgType := "signaling", signalingType := "ice-candidate",
        senderId := "p", senderName := none, targetId := "me", payload := "cand" }
     processIceV1 "me" st1 false m1 = (st1, [])) := by
  exact ⟨⟨rfl, rfl⟩, rfl⟩

/-- C4 amended. Ice-candidate handling in both variants: before the peer
connection object exists the candidate is silently discarded — variant 2's
dispatcher drops any ice-candidate with no peer connection (state unchanged,
no action), and variant 1's dispatch-plus-`addIceCandidate` path makes no
platform call and no state change — no buffering and no retry with backoff
exist anywhere; once the peer connection object exists the candidate is
handed directly (and exactly once) to the platform `addIceCandidate`. -/
theorem ice_handling_amended :
    (∀ (lid : String) (st : PeerState2) (m : WsMsgV2),
      m.content.signalingType = "ice-candidate" → st.pcPresent = false →
      handleWebSocketMessageV2 lid st m = (st, [])) ∧
    (∀ (lid : String) (st : PeerState2) (m : WsMsgV2),
      m.msgType = "signaling" → m.content.targetId = lid →
      m.content.signalingType = "ice-candidate" → st.pcPresent = true →
      handleWebSocketMessageV2 lid st m =
        (st, [PeerAction.addIceAct m.content.payload])) ∧
    (∀ (lid : String) (st : PeerState1) (m : SigInMsgV1),
      m.signalingType = "ice-candidate" →
      processIceV1 lid st false m = (st, [])) ∧
    (∀ (lid : String) (st : PeerState1) (m : SigInMsgV1),
      m.msgType = "signaling" → m.targetId = lid →
      m.signalingType = "ice-candidate" → some m.senderId = st.peerId →
      processIceV1 lid st true m = (st, [RtcCall.platformAddIce m.payload])) := by
  refine ⟨?_, ?_, ?_, ?_⟩
  · intro lid st m hty hpc
    unfold handleWebSocketMessageV2
    by_cases h1 : m.msgType = "signaling"
    · by_cases h2 : m.content.targetId = lid
      · simp [h1, h2, hty, hpc]
      · simp [h1, h2]
    · simp [h1]
  · intro lid st m h1 h2 hty hpc
    unfold handleWebSocketMessageV2
    simp [h1, h2, hty, hpc]
  · intro lid st m hty
    unfold processIceV1 handleSignalingMessageV1
    by_cases h1 : m.msgType = "signaling"
    · by_cases h2 : m.targetId = lid
      · by_cases h3 : some m.senderId = st.peerId <;>
          simp [h1, h2, h3, hty, runIceActionV1, addIceCandidateV1]
      · simp [h1, h2]
    · simp [h1]
  · intro lid st m h1 h2 hty hsnd
    unfold processIceV1 handleSignalingMessageV1
    simp [h1, h2, hty, hsnd, runIceActionV1, addIceCandidateV1]

/-- C5 counterexample. Variant 2's dispatcher does not ignore an
`ice-candidate` whose sender differs from the currently recorded remote
peer: with remote peer `"p"` recorded and a peer connection present, an
ice-candidate from `"q"` addressed to the local id is dispatched to
`addIceCandidate` (a non-empty action on the negotiation state) instead of
being ignored. -/
theorem peer_wrong_sender_counterexample :
    let st : PeerState2 :=
      { status := "connected", peerId := some "p", pcPresent := true }
    let m : WsMsgV2 :=
      { msgType := "signaling", content :=
        { signalingType := "ice-candidate", senderId := "q", senderName := none,
          targetId := "me", sessionId := "s", payload := "cand" } }
    some m.content.senderId ≠ st.peerId ∧ m.content.targetId = "me" ∧
    handleWebSocketMessageV2 "me" st m = (st, [PeerAction.addIceAct "cand"]) ∧
    handleWebSocketMessageV2 "me" st m ≠ (st, []) := by
  refine ⟨by decide, rfl, rfl, by decide⟩

/-- C5 amended. Complete guard characterization of both dispatchers.
Variant 1 behaves as the claim states: any envelope whose target is not the
local id (or that is not a signaling message) is ignored; `answer`,
`ice-candidate` and `peer-disconnect` are ignored unless the sender is the
currently recorded remote peer; an `offer` (from any sender) records the
sender as the remote peer. Variant 2 ignores wrong-target envelopes and
checks the sender only for `peer-disconnect`; it gates `offer` on status
disconnected and `answer` on status connecting regardless of the recorded
peer, and dispatches any `ice-candidate` once a peer connection object
exists, whatever the sender. -/
theorem peer_dispatch_guards :
    (∀ (lid : String) (st : PeerState1) (m : SigInMsgV1),
      m.msgType ≠ "signaling" ∨ m.targetId ≠ lid →
      handleSignalingMessageV1 lid st m = (st, [])) ∧
    (∀ (lid : String) (st : PeerState1) (m : SigInMsgV1),
      m.msgType = "signaling" → m.targetId = lid →
      m.signalingType = "answer" ∨ m.signalingType = "ice-candidate" ∨
        m.signalingType = "peer-disconnect" →
      some m.senderId ≠ st.peerId →
      handleSignalingMessageV1 lid st m = (st, [])) ∧
    (∀ (lid : String) (st : PeerState1) (m : SigInMsgV1),
      m.msgType = "signaling" → m.targetId = lid → m.signalingType = "offer" →
      handleSignalingMessageV1 lid st m =
        ({ st with peerId := some m.senderId, peerName := jsOrNull m.senderName }, [])) ∧
    (∀ (lid : String) (st : PeerState2) (m : WsMsgV2),
      m.msgType ≠ "signaling" ∨ m.content.targetId ≠ lid →
      handleWebSocketMessageV2 lid st m = (st, [])) ∧
    (∀ (lid : String) (st : PeerState2) (m : WsMsgV2),
      m.msgType = "signaling" → m.content.targetId = lid →
      m.content.signalingType = "peer-disconnect" →
      some m.content.senderId ≠ st.peerId →
      handleWebSocketMessageV2 lid st m = (st, [])) ∧
    (∀ (lid : String) (st : PeerState2) (m : WsMsgV2),
      m.msgType = "signaling" → m.content.targetId = lid →
      m.content.signalingType = "answer" →
      handleWebSocketMessageV2 lid st m =
        (if m.content.senderId ≠ "" ∧ st.status = "connecting" then
          (st, [PeerAction.handleAnswerAct m.content.payload])
        else (st, []))) ∧
    (∀ (lid : String) (st : PeerState2) (m : WsMsgV2),
      m.msgType = "signaling" → m.content.targetId = lid →
      m.content.signalingType = "ice-candidate" →
      handleWebSocketMessageV2 lid st m =
        (if st.pcPresent then (st, [PeerAction.addIceAct m.content.payload])
        else (st, []))) ∧
    (∀ (lid : String) (st : PeerState2) (m : WsMsgV2),
      m.msgType = "signaling" → m.content.targetId = lid →
      m.content.signalingType = "offer" →
      handleWebSocketMessageV2 lid st m =
        (if m.content.senderId ≠ "" ∧ st.status = "disconnected" then
          (st, [PeerAction.handleOfferAct m.content.payload m.content.senderId
            (jsOrS m.content.senderName "Peer") m.content.sessionId])
        else (st, []))) := by
  refine ⟨?_, ?_, ?_, ?_, ?_, ?_, ?_, ?_⟩
  · intro lid st m h
    unfold handleSignalingMessageV1
    rw [if_pos h]
  · intro lid st m h1 h2 hty hsnd
    unfold handleSignalingMessageV1
    rw [if_neg (by simp [h1, h2])]
    rcases hty with hty | hty | hty <;> simp [hty, hsnd]
  · intro lid st m h1 h2 hty
    unfold handleSignalingMessageV1
    rw [if_neg (by simp [h1, h2])]
    simp [hty]
  · intro lid st m h
    unfold handleWebSocketMessageV2
    rcases h with h | h
    · rw [if_pos h]
    · by_cases h1 : m.msgType = "signaling"
      · simp [h1, h]
      · simp [h1]
  · intro lid st m h1 h2 hty hsnd
    unfold handleWebSocketMessageV2
    simp [h1, h2, hty, hsnd]
  · intro lid st m h1 h2 hty
    unfold handleWebSocketMessageV2
    simp [h1, h2, hty]
  · intro lid st m h1 h2 hty
    unfold handleWebSocketMessageV2
    simp [h1, h2, hty]
  · intro lid st m h1 h2 hty
    unfold handleWebSocketMessageV2
    simp [h1, h2, hty]

/-! ## Concrete sample data for witness theorems -/

/-- Sample registered client `"a"`, member of session `"s"`. -/
def wClientA : Client := { id := "a", wsOpen := true, sessionId := some "s" }

/-- Sample registered client `"b"`, member of session `"s"`. -/
def wClientB : Client := { id := "b", wsOpen := true, sessionId := some "s" }

/-- Sample relay state with clients `"a"` and `"b"` in session `"s"`. -/
def wRelay : RelayState :=
  { clients := [wClientA, wClientB], sessions := [("s", ["a", "b"])] }

/-- Sample signaling envelope from `"a"` to `"b"` in session `"s"`. -/
def wSig : SigServerMsg :=
  { signalingType := "offer", senderId := "a", targetId := "b",
    sessionId := "s", payload := "sdp" }

/-- Sample client with all identity fields populated. -/
def wIdClient : Client :=
  { id := "c", wsOpen := true, sessionId := some "s", userId := some "u",
    displayName := some "D", userType := some "human" }

/-- Sample relay state for the identify witness. -/
def wIdState : RelayState :=
  { clients := [wIdClient], sessions := [("s", ["c"])] }

/-- Sample sole member of session `"A"`. -/
def wSolo : Client := { id := "c1", wsOpen := true, sessionId := some "A" }

/-- Sample relay state where `"c1"` is the last member of `"A"`. -/
def wSoloState : RelayState :=
  { clients := [wSolo], sessions := [("A", ["c1"])] }

/-- Sample connected Connection Manager state holding a socket. -/
def wWS : WSState :=
  { status := ConnStatus.connected, reconnectAttempt := 0,
    timerPending := false, socketPresent := true }

/-- Sample reconnecting Connection Manager state with a pending timer. -/
def wWS2 : WSState :=
  { status := ConnStatus.reconnecting, reconnectAttempt := 2,
    timerPending := true, socketPresent := false }

/-! ## Witness theorems -/

/-- Witness for C2: with both preconditions satisfied in a concrete relay
state, the envelope is forwarded to the target alone. -/
theorem relay_signal_spec_witness :
    clientsGet wRelay.clients "a" = some wClientA ∧ wClientA.wsOpen = true ∧
    (handleSignalingMessage wRelay "a" wSig).2 =
      [("b", ServerMsg.signalingFwd wSig none none)] := by
  refine ⟨rfl, rfl, ?_⟩
  have h := (relay_signal_spec wRelay "a" wSig wClientA rfl rfl).2.2.2.2
    wClientB rfl rfl rfl
  rw [h]
  rfl

/-- Concrete instance of the per-operation lifecycle facts: the sole member
of `"A"` (whose recorded session is `"A"`) leaving deletes the entry. -/
theorem session_lifecycle_witness :
    clientsGet wSoloState.clients "c1" = some wSolo ∧
    wSolo.sessionId = some "A" ∧
    sessionsGet wSoloState.sessions "A" = some ["c1"] ∧
    sessionsGet (handleLeaveSession wSoloState "c1").1.sessions "A" = none := by
  exact ⟨rfl, rfl, rfl, session_lifecycle.2.1 wSoloState "c1" wSolo "A" rfl rfl rfl⟩

/-- Witness for C4 amended: a concrete candidate with the peer connection
present is handed to the platform exactly once. -/
theorem ice_handling_amended_witness :
    handleWebSocketMessageV2 "me"
      { status := "connecting", peerId := some "p", pcPresent := true }
      { msgType := "signaling", content :=
        { signalingType := "ice-candidate", senderId := "p", senderName := none,
          targetId := "me", sessionId := "s", payload := "k" } } =
      ({ status := "connecting", peerId := some "p", pcPresent := true },
        [PeerAction.addIceAct "k"]) := by
  exact ice_handling_amended.2.1 "me" _ _ rfl rfl rfl rfl

/-- Witness for C5 amended: variant 1 ignores a concrete answer from a
sender other than the recorded peer. -/
theorem peer_dispatch_guards_witness :
    handleSignalingMessageV1 "me" { peerId := some "p", peerName := none }
      { msgType := "signaling", signalingType := "answer", senderId := "q",
        senderName := none, targetId := "me", payload := "x" } =
      ({ peerId := some "p", peerName := none }, []) := by
  exact peer_dispatch_guards.2.1 "me" _ _ rfl rfl (Or.inl rfl) (by decide)

/-- Witness for C6 amended: a concrete unclean close below the bound goes to
`reconnecting` with a timer. -/
theorem reconnect_close_amended_witness :
    wWS.socketPresent = true ∧ wWS.timerPending = false ∧
    (wsStep 5 wWS (WSEvent.closeEvt 1006)).status = ConnStatus.reconnecting ∧
    (wsStep 5 wWS (WSEvent.closeEvt 1006)).timerPending = true := by
  have h := (reconnect_close_amended 5 wWS 1006 rfl rfl (by decide)).1 (by decide)
  exact ⟨rfl, rfl, h.1, h.2.1⟩

/-- Witness for C7: a concrete disconnect during `reconnecting` followed by
a timer-fire and an open event never reaches `connecting`. -/
theorem disconnect_cancels_reconnect_witness :
    wWS2.status = ConnStatus.reconnecting ∧
    WSEvent.connectCall ∉ [WSEvent.timerFire, WSEvent.openEvt] ∧
    (wsStep 5 wWS2 WSEvent.disconnectCall).status = ConnStatus.disconnected ∧
    (wsRun 5 (wsStep 5 wWS2 WSEvent.disconnectCall)
      [WSEvent.timerFire, WSEvent.openEvt]).status ≠ ConnStatus.connecting := by
  have h := disconnect_cancels_reconnect 5 wWS2 rfl
    [WSEvent.timerFire, WSEvent.openEvt] (by decide)
  exact ⟨rfl, by decide, h.1, h.2.2.2.2⟩

/-- Witness for C8: a concrete in-session chat is the broadcast of the chat
event to the whole session. -/
theorem chat_spec_witness :
    handleChatMessage wRelay "a" { content := "hi" } "t0" =
      (wRelay, broadcastToSession wRelay "s"
        (ServerMsg.chat none none "hi" "human" "t0") []) := by
  have h := (chat_spec wRelay "a" { content := "hi" } "t0").2.1 wClientA "s" rfl rfl
  rw [h]
  rfl

/-- Witness for C9: a concrete identify overwrites exactly the truthy field
and keeps the sessions map. -/
theorem identify_frame_witness :
    (handleIdentify wIdState "c" { displayName := some "E" }).1.sessions =
      wIdState.sessions ∧
    clientsGet (handleIdentify wIdState "c" { displayName := some "E" }).1.clients
      "c" = some { wIdClient with displayName := some "E" } := by
  have h := identify_frame wIdState "c" { displayName := some "E" }
  refine ⟨h.1, ?_⟩
  have h3 := h.2.2 wIdClient rfl
  rw [h3]
  rfl

/-- Witness for C10: a concrete send to a registered open client delivers
exactly one message. -/
theorem send_broadcast_spec_witness :
    clientsGet [wClientA] "a" = some wClientA ∧ wClientA.wsOpen = true ∧
    sendToClient [wClientA] "a" (ServerMsg.errorMsg "x") =
      [("a", ServerMsg.errorMsg "x")] := by
  exact ⟨rfl, rfl,
    send_broadcast_spec.2.2.1 [wClientA] "a" (ServerMsg.errorMsg "x") wClientA rfl rfl⟩

end SentientWitness
